import Mathlib

/-!
# Verification of the ZillyOS-Runtime reactive state container (StateManager)

The repository ships the StateManager's test suite
(`src/tests/node/StateManager.test.js`) but not `src/core/StateManager.js`
itself, so the container below is modelled from the specification
(`spec.md` §3–§4.6), with concrete constants and behaviors that the spec
leaves open pinned by the shipped test suite.

Modelling conventions:
* JavaScript values are the inductive `Value` (null, booleans, numbers,
  strings, arrays, plain objects).  Objects are association lists that
  preserve insertion order, as JS object keys do.
* `undefined` is represented by `Option Value`'s `none` where it can occur
  (old values of paths that did not exist).
* Timestamps (wall-clock milliseconds) are omitted from history entries and
  events: real time is not observable in the pure model and no claim
  depends on a timestamp's value.
* Exceptions become `Except SMError`; a thrown error leaves the caller's
  container untouched exactly as a JS throw leaves the object unmutated
  past the point of the throw.
-/

/-- A JavaScript value: scalars, sequences and nested string-keyed
mappings.  Mappings are insertion-ordered association lists, mirroring JS
object key order. -/
inductive Value where
  | null : Value
  | bool : Bool → Value
  | num : Int → Value
  | str : String → Value
  | arr : List Value → Value
  | obj : List (String × Value) → Value
  deriving Repr

mutual

/-- Structural (deep) equality of JS values is decidable. -/
def Value.decEq : (a b : Value) → Decidable (a = b)
  | .null, .null => isTrue rfl
  | .bool a, .bool b =>
    if h : a = b then isTrue (by rw [h]) else isFalse (by intro hh; injection hh; contradiction)
  | .num a, .num b =>
    if h : a = b then isTrue (by rw [h]) else isFalse (by intro hh; injection hh; contradiction)
  | .str a, .str b =>
    if h : a = b then isTrue (by rw [h]) else isFalse (by intro hh; injection hh; contradiction)
  | .arr a, .arr b =>
    match Value.decEqList a b with
    | isTrue h => isTrue (by rw [h])
    | isFalse h => isFalse (by intro hh; injection hh; contradiction)
  | .obj a, .obj b =>
    match Value.decEqFields a b with
    | isTrue h => isTrue (by rw [h])
    | isFalse h => isFalse (by intro hh; injection hh; contradiction)
  | .null, .bool _ => isFalse (fun h => Value.noConfusion h)
  | .null, .num _ => isFalse (fun h => Value.noConfusion h)
  | .null, .str _ => isFalse (fun h => Value.noConfusion h)
  | .null, .arr _ => isFalse (fun h => Value.noConfusion h)
  | .null, .obj _ => isFalse (fun h => Value.noConfusion h)
  | .bool _, .null => isFalse (fun h => Value.noConfusion h)
  | .bool _, .num _ => isFalse (fun h => Value.noConfusion h)
  | .bool _, .str _ => isFalse (fun h => Value.noConfusion h)
  | .bool _, .arr _ => isFalse (fun h => Value.noConfusion h)
  | .bool _, .obj _ => isFalse (fun h => Value.noConfusion h)
  | .num _, .null => isFalse (fun h => Value.noConfusion h)
  | .num _, .bool _ => isFalse (fun h => Value.noConfusion h)
  | .num _, .str _ => isFalse (fun h => Value.noConfusion h)
  | .num _, .arr _ => isFalse (fun h => Value.noConfusion h)
  | .num _, .obj _ => isFalse (fun h => Value.noConfusion h)
  | .str _, .null => isFalse (fun h => Value.noConfusion h)
  | .str _, .bool _ => isFalse (fun h => Value.noConfusion h)
  | .str _, .num _ => isFalse (fun h => Value.noConfusion h)
  | .str _, .arr _ => isFalse (fun h => Value.noConfusion h)
  | .str _, .obj _ => isFalse (fun h => Value.noConfusion h)
  | .arr _, .null => isFalse (fun h => Value.noConfusion h)
  | .arr _, .bool _ => isFalse (fun h => Value.noConfusion h)
  | .arr _, .num _ => isFalse (fun h => Value.noConfusion h)
  | .arr _, .str _ => isFalse (fun h => Value.noConfusion h)
  | .arr _, .obj _ => isFalse (fun h => Value.noConfusion h)
  | .obj _, .null => isFalse (fun h => Value.noConfusion h)
  | .obj _, .bool _ => isFalse (fun h => Value.noConfusion h)
  | .obj _, .num _ => isFalse (fun h => Value.noConfusion h)
  | .obj _, .str _ => isFalse (fun h => Value.noConfusion h)
  | .obj _, .arr _ => isFalse (fun h => Value.noConfusion h)

/-- Decidable equality of value lists (JS arrays). -/
def Value.decEqList : (xs ys : List Value) → Decidable (xs = ys)
  | [], [] => isTrue rfl
  | [], _ :: _ => isFalse (fun h => List.noConfusion h)
  | _ :: _, [] => isFalse (fun h => List.noConfusion h)
  | x :: xs, y :: ys =>
    match Value.decEq x y, Value.decEqList xs ys with
    | isTrue h₁, isTrue h₂ => isTrue (by rw [h₁, h₂])
    | isFalse h₁, _ => isFalse (by intro hh; injection hh; contradiction)
    | isTrue _, isFalse h₂ => isFalse (by intro hh; injection hh; contradiction)

/-- Decidable equality of object field lists. -/
def Value.decEqFields : (xs ys : List (String × Value)) → Decidable (xs = ys)
  | [], [] => isTrue rfl
  | [], _ :: _ => isFalse (fun h => List.noConfusion h)
  | _ :: _, [] => isFalse (fun h => List.noConfusion h)
  | (k, v) :: xs, (k', v') :: ys =>
    if hk : k = k' then
      match Value.decEq v v', Value.decEqFields xs ys with
      | isTrue h₁, isTrue h₂ => isTrue (by rw [hk, h₁, h₂])
      | isFalse h₁, _ => isFalse (by
          intro hh
          injection hh with hp ht
          exact h₁ (congrArg Prod.snd hp))
      | isTrue _, isFalse h₂ => isFalse (by intro hh; injection hh; contradiction)
    else
      isFalse (by
        intro hh
        injection hh with hp ht
        exact hk (congrArg Prod.fst hp))

end

instance : DecidableEq Value := Value.decEq

/-- Is this value a plain mapping (a JS plain object)? -/
def Value.isObj : Value → Bool
  | .obj _ => true
  | _ => false

/-- First binding of key `k` in an insertion-ordered object field list
(JS property lookup `o[k]`, `undefined` as `none`). -/
def objFind (k : String) : List (String × Value) → Option Value
  | [] => none
  | (k', v) :: rest => if k' = k then some v else objFind k rest

/-- Assignment `o[k] = v` on an insertion-ordered field list: replaces the
binding in place when the key exists, otherwise appends it (JS key-order
semantics). -/
def objSet (k : String) (v : Value) : List (String × Value) → List (String × Value)
  | [] => [(k, v)]
  | (k', v') :: rest => if k' = k then (k, v) :: rest else (k', v') :: objSet k v rest

/-- `delete o[k]`: removes the binding for `k`, keeping the others in
order. -/
def objRemove (k : String) : List (String × Value) → List (String × Value)
  | [] => []
  | (k', v') :: rest => if k' = k then rest else (k', v') :: objRemove k rest

@[simp] theorem objFind_objSet_self (k : String) (v : Value) (fields : List (String × Value)) :
    objFind k (objSet k v fields) = some v := by
  induction fields with
  | nil => simp [objFind, objSet]
  | cons hd tl ih =>
    obtain ⟨k', v'⟩ := hd
    by_cases h : k' = k <;> simp [objFind, objSet, h, ih]

theorem objFind_objSet_ne (k k' : String) (v : Value) (fields : List (String × Value))
    (h : k ≠ k') : objFind k' (objSet k v fields) = objFind k' fields := by
  induction fields with
  | nil => simp [objFind, objSet, h]
  | cons hd tl ih =>
    obtain ⟨k₀, v₀⟩ := hd
    by_cases h₀ : k₀ = k
    · subst h₀; simp [objFind, objSet, h]
    · simp only [objSet, if_neg h₀]
      by_cases h₁ : k₀ = k' <;> simp [objFind, h₁, ih]

theorem objFind_objRemove_ne (k k' : String) (fields : List (String × Value))
    (h : k ≠ k') : objFind k' (objRemove k fields) = objFind k' fields := by
  induction fields with
  | nil => simp [objRemove]
  | cons hd tl ih =>
    obtain ⟨k₀, v₀⟩ := hd
    by_cases h₀ : k₀ = k
    · have h₁ : k₀ ≠ k' := by rw [h₀]; exact h
      simp [objRemove, objFind, h₀, h₁, h]
    · by_cases h₁ : k₀ = k'
      · have h₂ : k' ≠ k := by rw [← h₁]; exact h₀
        simp [objRemove, objFind, h₀, h₁, h₂, ih]
      · simp [objRemove, objFind, h₀, h₁, ih]

theorem objFind_mem {k : String} {v : Value} {fields : List (String × Value)}
    (h : objFind k fields = some v) : (k, v) ∈ fields := by
  induction fields with
  | nil => simp [objFind] at h
  | cons hd tl ih =>
    obtain ⟨k', v'⟩ := hd
    by_cases h' : k' = k
    · subst h'
      simp [objFind] at h
      simp [h]
    · simp [objFind, h'] at h
      exact List.mem_cons_of_mem _ (ih h)

/-! ## Path Accessor (spec §4.1)

A path is a dot-separated string; `pathSegs` models JS
`path.split('.')` and always yields a non-empty segment list.  Reads walk
the tree and yield `none` (JS `undefined`) the moment a segment is missing
or a non-mapping value is met before the path is exhausted; writes create
missing intermediate mapping nodes, replacing non-mapping intermediates
with fresh empty mappings. -/

/-- Split a character list at `'.'` separators (JS `String##split('.')`
semantics: the empty string yields one empty segment, consecutive dots
yield empty segments). -/
def splitDots : List Char → List (List Char)
  | [] => [[]]
  | c :: rest =>
    let r := splitDots rest
    if c = '.' then [] :: r
    else
      match r with
      | [] => [[c]]
      | seg :: segs => (c :: seg) :: segs

/-- The dot-separated segments of a path string (JS `path.split('.')`). -/
def pathSegs (s : String) : List String :=
  (splitDots s.data).map fun cs => ⟨cs⟩

theorem splitDots_ne_nil (cs : List Char) : splitDots cs ≠ [] := by
  cases cs with
  | nil => simp [splitDots]
  | cons c rest =>
    simp only [splitDots]
    by_cases h : c = '.'
    · simp [h]
    · simp only [if_neg h]
      cases splitDots rest <;> simp

/-- Splitting any path string yields at least one segment. -/
theorem pathSegs_ne_nil (s : String) : pathSegs s ≠ [] := by
  intro h
  exact splitDots_ne_nil s.data (by simpa [pathSegs] using h)

/-- Walk a field list along path segments (Path Accessor `get`): `none` as
soon as a segment is missing or a non-mapping value is met early. -/
def getSegs : List (String × Value) → List String → Option Value
  | _, [] => none
  | fields, [k] => objFind k fields
  | fields, k :: rest =>
    match objFind k fields with
    | some (.obj f) => getSegs f rest
    | _ => none

/-- Write along path segments (Path Accessor `set`): walks/creates
intermediate mapping nodes for every segment but the last, then assigns at
the final segment. -/
def setSegs : List (String × Value) → List String → Value → List (String × Value)
  | fields, [], _ => fields
  | fields, [k], v => objSet k v fields
  | fields, k :: rest, v =>
    let child : List (String × Value) :=
      match objFind k fields with
      | some (.obj f) => f
      | _ => []
    objSet k (.obj (setSegs child rest v)) fields

/-- Read a dot-path from a field list, `none` for `undefined`. -/
def getPath (fields : List (String × Value)) (path : String) : Option Value :=
  getSegs fields (pathSegs path)

/-- `getState(path, default)`: the stored value, or the caller's default
when the path does not resolve. -/
def getPathD (fields : List (String × Value)) (path : String) (dflt : Value) : Value :=
  (getPath fields path).getD dflt

/-- Write a dot-path into a field list. -/
def setPath (fields : List (String × Value)) (path : String) (v : Value) :
    List (String × Value) :=
  setSegs fields (pathSegs path) v

/-- Set-then-get roundtrip along the same segment list. -/
theorem getSegs_setSegs (segs : List String) (v : Value) :
    ∀ fields : List (String × Value), segs ≠ [] →
      getSegs (setSegs fields segs v) segs = some v := by
  induction segs with
  | nil => intro fields h; exact absurd rfl h
  | cons k rest ih =>
    intro fields _
    cases rest with
    | nil => simp [setSegs, getSegs]
    | cons k₂ rest₂ =>
      simp only [setSegs, getSegs, objFind_objSet_self]
      exact ih _ (by simp)

/-- Set-then-get roundtrip for dot-path strings. -/
theorem getPath_setPath (fields : List (String × Value)) (path : String) (v : Value) :
    getPath (setPath fields path v) path = some v :=
  getSegs_setSegs (pathSegs path) v fields (pathSegs_ne_nil path)

/-! ## Validation Registry (spec §4.2)

Patterns are dot-paths whose segments may be the wildcard `*`; a pattern
matches a concrete path when the segment lists have equal length and agree
segment-wise, `*` matching any single literal segment. -/

/-- Segment-wise pattern match: equal length, each pattern segment is `*`
or equal to the corresponding path segment. -/
def segMatches : List String → List String → Bool
  | [], [] => true
  | p :: ps, s :: ss => (p = "*" || p = s) && segMatches ps ss
  | _, _ => false

/-- Does a validation pattern match a concrete dot-path? -/
def patternMatches (pattern path : String) : Bool :=
  segMatches (pathSegs pattern) (pathSegs path)

/-- A validation rule (spec §3): pattern, pure predicate over the
candidate new value, optional failure message. -/
structure Rule where
  pattern : String
  validator : Value → Bool
  message : Option String

/-- The first registered rule whose pattern matches the path and whose
predicate rejects the candidate value (spec §4.2: "the first failing
predicate aborts the write"). -/
def findFailingRule (rules : List Rule) (path : String) (v : Value) : Option Rule :=
  rules.find? fun r => patternMatches r.pattern path && !(r.validator v)

/-! ## Container state (spec §3, §6)

`src/core/StateManager.js` is not part of the snapshot, so the container
is modelled from the spec with these pinned/abstracted points:
* Default tree shape, `maxHistorySize = 50`, `maxRollbackStack = 20` and
  the `debugMode` stats flag are pinned by the shipped test suite.
* Checkpoint identifiers (spec: "time + random suffix") are modelled as
  `"checkpoint_" ++ counter` from a per-container fresh counter — opaque
  unique tokens, since wall-clock time and randomness are not observable
  in the pure model.
* Subscriber callbacks are identified by a numeric registration id; an
  invocation is recorded as a `Notification` instead of running arbitrary
  code (callback errors are swallowed per spec §4.3 and are invisible to
  every claim).  Filtered subscriptions (`subscribeWithFilter`) are not
  modelled: no claim mentions them.
* The diff cache behind `getStats().diffCacheSize` is not modelled beyond
  its (initially zero) size. -/

/-- An exact-path subscription, identified by registration id. -/
structure Subscription where
  id : Nat
  path : String
  deriving Repr, DecidableEq

/-- One recorded subscriber invocation: callback `(newValue, oldValue,
path)`, old value `none` when the path was previously undefined. -/
structure Notification where
  subId : Nat
  newValue : Value
  oldValue : Option Value
  path : String
  deriving Repr, DecidableEq

/-- One change record: `{path, oldValue, newValue}` (timestamps omitted,
see header). -/
structure HistoryUpdate where
  path : String
  oldValue : Option Value
  newValue : Value
  deriving Repr, DecidableEq

/-- A History Log entry: an individual record or a batch record
(`type=batch` with the ordered list of updates). -/
inductive HistoryEntry where
  | single : HistoryUpdate → HistoryEntry
  | batch : List HistoryUpdate → HistoryEntry
  deriving Repr, DecidableEq

/-- An event published on the external transport (spec §6): exactly two
event names exist. -/
inductive ExternalEvent where
  | stateChanged : HistoryUpdate → ExternalEvent
  | stateBatch : List HistoryUpdate → ExternalEvent
  deriving Repr, DecidableEq

/-- A checkpoint: identifier, optional label and a full snapshot of the
tree at creation time (deep copy is implicit in the pure model). -/
structure Checkpoint where
  id : String
  label : Option String
  snapshot : List (String × Value)
  deriving Repr, DecidableEq

/-- Errors raised synchronously to the caller (spec §7 taxonomy; the
subset the claims exercise). -/
inductive SMError where
  | invalidPath : SMError
  | validationFailed : String → SMError
  | alreadyInBatch : SMError
  | workError : String → SMError
  deriving Repr, DecidableEq

/-- The state container.  `batchUpdates` is the in-flight batch's
collected update list (meaningful only while `batchMode` is set). -/
structure StateManager where
  state : List (String × Value)
  subscribers : List Subscription
  validationRules : List Rule
  history : List HistoryEntry
  maxHistorySize : Nat
  rollbackStack : List Checkpoint
  maxRollbackStack : Nat
  batchMode : Bool
  batchUpdates : List HistoryUpdate
  debugMode : Bool
  counter : Nat
  diffCacheSize : Nat

/-- Options accepted by `setState` (defaults `validate = true`,
`silent = false`). -/
structure SetOptions where
  validate : Bool
  silent : Bool
  deriving Repr, DecidableEq

/-- The default tree shape a fresh container starts from (pinned by the
initialization test). -/
def defaultState : List (String × Value) :=
  [("characters", .obj []),
   ("activeCharacter", .null),
   ("chatSessions", .obj []),
   ("activeChat", .null),
   ("messages", .obj []),
   ("config", .obj []),
   ("ui", .obj [("theme", .str "default"), ("sidebarOpen", .bool true), ("loading", .bool false)]),
   ("runtime", .obj [("initialized", .bool false), ("version", .str "1.0.0"), ("lastUpdate", .null)])]

/-- A freshly constructed container. -/
def mkStateManager : StateManager :=
  { state := defaultState
    subscribers := []
    validationRules := []
    history := []
    maxHistorySize := 50
    rollbackStack := []
    maxRollbackStack := 20
    batchMode := false
    batchUpdates := []
    debugMode := false
    counter := 0
    diffCacheSize := 0 }

/-- Keep only the most recent `max` entries of a list (JS
`while (length > max) shift()`, applied after each append). -/
def trimTo (max : Nat) (l : List HistoryEntry) : List HistoryEntry :=
  l.drop (l.length - max)

/-- The invocations of every exact-path subscriber of `path`, in
registration order, each with `(newValue, oldValue, path)`. -/
def notifySubscribers (subs : List Subscription) (path : String)
    (newValue : Value) (oldValue : Option Value) : List Notification :=
  (subs.filter fun s => s.path = path).map fun s =>
    { subId := s.id, newValue := newValue, oldValue := oldValue, path := path }

/-- What one accepted write produced: the container afterwards, the
subscriber invocations, and the externally published events. -/
structure WriteResult where
  sm : StateManager
  notifications : List Notification
  events : List ExternalEvent

/-- The write pipeline (spec §4.4, subscriber/silent interplay pinned by
the tests): validate → compute old value → mutate tree → record history
(or collect into the open batch) → notify exact-path subscribers → publish
`state:changed` externally.  Per the shipped test
"should not emit events when silent option is used", `silent: true`
suppresses both the subscriber invocations and the external publish; an
open batch suppresses the per-write external publish and the individual
history record, collecting the update instead. -/
def setState (sm : StateManager) (path : String) (value : Value) (opts : SetOptions) :
    Except SMError WriteResult :=
  if path = "" then .error .invalidPath
  else
    match (if opts.validate then findFailingRule sm.validationRules path value else none) with
    | some r =>
      .error (.validationFailed (r.message.getD ("StateManager: Validation failed for path: " ++ path)))
    | none =>
      let oldValue := getPath sm.state path
      let newState := setPath sm.state path value
      let upd : HistoryUpdate := { path := path, oldValue := oldValue, newValue := value }
      let notifs := if opts.silent then [] else notifySubscribers sm.subscribers path value oldValue
      if sm.batchMode then
        .ok { sm := { sm with state := newState, batchUpdates := sm.batchUpdates ++ [upd] }
              notifications := notifs
              events := [] }
      else
        .ok { sm := { sm with state := newState
                              history := trimTo sm.maxHistorySize (sm.history ++ [.single upd]) }
              notifications := notifs
              events := if opts.silent then [] else [.stateChanged upd] }

/-! ## Checkpoint / Rollback Stack (spec §4.5) -/

/-- `createCheckpoint(label?)`: push `{id, label, snapshot}` onto the
stack, evicting the oldest entry once the stack exceeds its capacity.
Returns the container and the fresh identifier. -/
def createCheckpoint (sm : StateManager) (label : Option String) : StateManager × String :=
  let id := "checkpoint_" ++ toString sm.counter
  let cp : Checkpoint := { id := id, label := label, snapshot := sm.state }
  let stack := sm.rollbackStack ++ [cp]
  let stack := stack.drop (stack.length - sm.maxRollbackStack)
  ({ sm with rollbackStack := stack, counter := sm.counter + 1 }, id)

/-- A rollback / diff target: positive depth-from-top, or an identifier /
label string. -/
inductive RTarget where
  | num : Int → RTarget
  | str : String → RTarget
  deriving Repr, DecidableEq

/-- Resolve a target to a stack index (spec §4.5): depth `1` is the most
recent checkpoint (last of the list); a string matches the first
checkpoint whose id or label equals it; unresolvable targets give
`none`. -/
def resolveTarget (stack : List Checkpoint) : RTarget → Option Nat
  | .num d =>
    if 0 < d ∧ d ≤ (stack.length : Int) then some (stack.length - d.toNat) else none
  | .str s => stack.findIdx? fun cp => cp.id = s || cp.label = some s

/-- `rollback(target)`: on an unresolved target return `false` leaving
everything unchanged; otherwise replace the live tree with the resolved
snapshot, discard that checkpoint and everything pushed after it, and
return `true`.  No validation and no subscriber notification is run. -/
def rollback (sm : StateManager) (t : RTarget) : StateManager × Bool :=
  match resolveTarget sm.rollbackStack t with
  | none => (sm, false)
  | some idx =>
    match sm.rollbackStack[idx]? with
    | none => (sm, false)
    | some cp =>
      ({ sm with state := cp.snapshot, rollbackStack := sm.rollbackStack.take idx }, true)

/-! ## Batch Transaction Controller (spec §4.4)

The unit of work passed to `batchUpdate` is modelled as a list of
commands: ordinary writes, an attempted re-entrant `batchUpdate`, and an
arbitrary thrown error. -/

/-- One step of a batch's unit of work. -/
inductive BatchCmd where
  | write : String → Value → BatchCmd
  | nestedBatch : BatchCmd
  | raiseErr : String → BatchCmd

/-- What a `batchUpdate` call produced: the container afterwards, all
subscriber invocations, all externally published events, and the error
re-raised to the caller (if any). -/
structure BatchResult where
  sm : StateManager
  notifications : List Notification
  events : List ExternalEvent
  error : Option SMError

/-- Run the unit of work: each write goes through the ordinary `setState`
pipeline (validated, mutated, subscriber-notified); a thrown error stops
the remaining work, leaving already-applied writes applied. -/
def runWork (sm : StateManager) :
    List BatchCmd → StateManager × List Notification × List ExternalEvent × Option SMError
  | [] => (sm, [], [], none)
  | cmd :: rest =>
    match cmd with
    | .write p v =>
      match setState sm p v { validate := true, silent := false } with
      | .error e => (sm, [], [], some e)
      | .ok r =>
        let (sm', ns, es, err) := runWork r.sm rest
        (sm', r.notifications ++ ns, r.events ++ es, err)
    | .nestedBatch =>
      if sm.batchMode then (sm, [], [], some .alreadyInBatch)
      else
        let (sm', ns, es, err) := runWork sm rest
        (sm', ns, es, err)
    | .raiseErr msg => (sm, [], [], some (.workError msg))

/-- `batchUpdate(work)` (spec §4.4): re-entrant invocation fails with
`AlreadyInBatch` performing none of the work; otherwise the flag is set,
the work runs, and on success one `state:batch` event is published and one
batch history entry appended; the flag is cleared on every exit, a failing
work's error being re-raised after the clear. -/
def batchUpdate (sm : StateManager) (work : List BatchCmd) : BatchResult :=
  if sm.batchMode then
    { sm := sm, notifications := [], events := [], error := some .alreadyInBatch }
  else
    let sm₁ := { sm with batchMode := true, batchUpdates := [] }
    match runWork sm₁ work with
    | (sm₂, ns, es, some e) =>
      { sm := { sm₂ with batchMode := false, batchUpdates := [] }
        notifications := ns
        events := es
        error := some e }
    | (sm₂, ns, es, none) =>
      let ups := sm₂.batchUpdates
      { sm := { sm₂ with batchMode := false, batchUpdates := []
                         history := trimTo sm₂.maxHistorySize (sm₂.history ++ [.batch ups]) }
        notifications := ns
        events := es ++ [.stateBatch ups]
        error := none }

/-! ## Diff Engine (spec §4.6) -/

/-- The flattened structural delta between two nested mappings, as
insertion-ordered path-keyed lists (`modified` carries `(path, old,
new)`). -/
structure DiffResult where
  added : List (String × Value)
  modified : List (String × Value × Value)
  removed : List (String × Value)
  deriving Repr, DecidableEq

/-- Extend an accumulated dot-path prefix with a key. -/
def joinPath (pre k : String) : String :=
  if pre = "" then k else pre ++ "." ++ k

/-- Concatenation of diff results, component-wise. -/
def DiffResult.append (d e : DiffResult) : DiffResult :=
  { added := d.added ++ e.added
    modified := d.modified ++ e.modified
    removed := d.removed ++ e.removed }

mutual

/-- `getDiffBetween` recursion (spec §4.6): walk the union of keys level
by level.  Keys of the source are processed in order against the target
(each processed key removed from the remaining target); a key absent from
the target is reported whole under `removed`; target keys left over at
the end — absent from the source — are reported whole under `added`. -/
def getDiffFields (pre : String) : List (String × Value) → List (String × Value) → DiffResult
  | [], b => { added := b.map fun kv => (joinPath pre kv.1, kv.2), modified := [], removed := [] }
  | (k, va) :: rest, b =>
    let tailRes := getDiffFields pre rest (objRemove k b)
    match objFind k b with
    | none => { tailRes with removed := (joinPath pre k, va) :: tailRes.removed }
    | some vb => (getDiffPair (joinPath pre k) va vb).append tailRes

/-- Diff of one key present on both sides (spec §4.6): two mappings
recurse with the extended prefix; any other combination (a non-mapping on
either side, or a mapping/non-mapping type mismatch) is compared
atomically by deep equality, unequal values landing in `modified` as
`(old, new)`. -/
def getDiffPair (p : String) : Value → Value → DiffResult
  | .obj fa, .obj fb => getDiffFields p fa fb
  | va, vb =>
    if va = vb then { added := [], modified := [], removed := [] }
    else { added := [], modified := [(p, va, vb)], removed := [] }

end

/-- `getDiffBetween(a, b)`: structural diff of two trees, independent of
the live state. -/
def getDiffBetween (a b : List (String × Value)) : DiffResult :=
  getDiffFields "" a b

/-- `getDiff(target)`: resolve like `rollback` and diff the snapshot
against the current tree, `none` when unresolved. -/
def getDiff (sm : StateManager) (t : RTarget) : Option DiffResult :=
  match resolveTarget sm.rollbackStack t with
  | none => none
  | some idx =>
    match sm.rollbackStack[idx]? with
    | none => none
    | some cp => some (getDiffBetween cp.snapshot sm.state)

/-! ## Statistics (spec §6; `debugMode` field pinned by the test) -/

/-- The record returned by `getStats()`. -/
structure Stats where
  subscriberCount : Nat
  validationRuleCount : Nat
  historySize : Nat
  maxHistorySize : Nat
  debugMode : Bool
  stateSize : Nat
  batchMode : Bool
  rollbackStackSize : Nat
  maxRollbackStack : Nat
  diffCacheSize : Nat
  deriving Repr, DecidableEq

mutual

/-- Structural node count of a value (stands in for the JSON-serialized
length used by `stateSize`; no claim pins its exact value). -/
def Value.nodeCount : Value → Nat
  | .null => 1
  | .bool _ => 1
  | .num _ => 1
  | .str _ => 1
  | .arr xs => 1 + Value.nodeCountList xs
  | .obj fs => 1 + Value.nodeCountFields fs

/-- Node count of an array's elements. -/
def Value.nodeCountList : List Value → Nat
  | [] => 0
  | x :: xs => Value.nodeCount x + Value.nodeCountList xs

/-- Node count of an object's fields. -/
def Value.nodeCountFields : List (String × Value) → Nat
  | [] => 0
  | (_, v) :: rest => 1 + Value.nodeCount v + Value.nodeCountFields rest

end

/-- `getStats()`: live counts and configured bounds.  `stateSize` stands
for the JSON-serialized size of the tree; its exact value is not pinned by
any claim, so the structural size is used. -/
def getStats (sm : StateManager) : Stats :=
  { subscriberCount := sm.subscribers.length
    validationRuleCount := sm.validationRules.length
    historySize := sm.history.length
    maxHistorySize := sm.maxHistorySize
    debugMode := sm.debugMode
    stateSize := Value.nodeCountFields sm.state
    batchMode := sm.batchMode
    rollbackStackSize := sm.rollbackStack.length
    maxRollbackStack := sm.maxRollbackStack
    diffCacheSize := sm.diffCacheSize }

/-! ## Helper projections over write results -/

/-- Did the write succeed (no exception)? -/
def writeIsOk : Except SMError WriteResult → Bool
  | .ok _ => true
  | .error _ => false

/-- The subscriber invocations of a write (`[]` when it threw). -/
def writeNotifs : Except SMError WriteResult → List Notification
  | .ok r => r.notifications
  | .error _ => []

/-- The externally published events of a write (`[]` when it threw). -/
def writeEvents : Except SMError WriteResult → List ExternalEvent
  | .ok r => r.events
  | .error _ => []

/-! ## Claims -/

/-- C10: a freshly constructed container's `getStats()` reports the
default bounds `maxHistorySize = 50` and `maxRollbackStack = 20`, and
includes a `debugMode` flag that is initially `false` (the spec's
`getStats` signature omits this field; the statistics test pins it). -/
theorem C10_fresh_container_stats :
    (getStats mkStateManager).maxHistorySize = 50 ∧
    (getStats mkStateManager).maxRollbackStack = 20 ∧
    (getStats mkStateManager).debugMode = false :=
  ⟨rfl, rfl, rfl⟩

/-- C8: any accepted `setState(p, v)` followed by `getState(p)` reads back
a value deeply equal (here: structurally equal) to `v`, whether or not the
intermediate mapping nodes of `p` existed beforehand and whatever nested
shape `v` has. -/
theorem C8_set_then_get (sm : StateManager) (path : String) (v : Value)
    (opts : SetOptions) (r : WriteResult)
    (h : setState sm path v opts = .ok r) :
    getPath r.sm.state path = some v := by
  dsimp only [setState] at h
  split at h
  · exact Except.noConfusion h
  · split at h
    · exact Except.noConfusion h
    · repeat' split at h
      all_goals
        first
        | exact Except.noConfusion h
        | (injection h with h'; subst h'; exact getPath_setPath sm.state path v)

/-- The value written in the C8 witness: a nested structure with a mapping
and a sequence, under a path none of whose segments pre-exist. -/
def c8val : Value :=
  .obj [("id", .str "char123"),
        ("metadata", .obj [("tags", .arr [.str "fantasy", .str "adventure"])])]

/-- The concrete result of the C8 witness write. -/
def c8res : WriteResult :=
  match setState mkStateManager "deeply.nested.property" c8val ⟨true, false⟩ with
  | .ok r => r
  | .error _ => { sm := mkStateManager, notifications := [], events := [] }

theorem C8_set_then_get_witness :
    getPath c8res.sm.state "deeply.nested.property" = some c8val :=
  C8_set_then_get mkStateManager "deeply.nested.property" c8val ⟨true, false⟩ c8res rfl

/-- C6: `rollback` on any target that resolves to no checkpoint — depth
`0`, a negative depth, a depth exceeding the stack size, or a string
matching no checkpoint's identifier or label — returns `false` and leaves
the container (state tree and checkpoint stack included) unchanged. -/
theorem C6_invalid_rollback :
    (∀ (sm : StateManager) (d : Int),
        ¬(0 < d ∧ d ≤ (sm.rollbackStack.length : Int)) →
        rollback sm (.num d) = (sm, false)) ∧
    (∀ (sm : StateManager) (s : String),
        (∀ cp ∈ sm.rollbackStack, cp.id ≠ s ∧ cp.label ≠ some s) →
        rollback sm (.str s) = (sm, false)) := by
  constructor
  · intro sm d h
    simp [rollback, resolveTarget, h]
  · intro sm s h
    have hnone : sm.rollbackStack.findIdx? (fun cp => cp.id = s || cp.label = some s) = none := by
      rw [List.findIdx?_eq_none_iff]
      intro cp hcp
      obtain ⟨h1, h2⟩ := h cp hcp
      simp [h1, h2]
    simp [rollback, resolveTarget, hnone]

theorem C6_invalid_rollback_witness :
    rollback mkStateManager (.num 1) = (mkStateManager, false) ∧
    rollback mkStateManager (.num 0) = (mkStateManager, false) ∧
    rollback mkStateManager (.num (-1)) = (mkStateManager, false) ∧
    rollback mkStateManager (.str "nonexistent") = (mkStateManager, false) :=
  ⟨C6_invalid_rollback.1 mkStateManager 1 (by decide),
   C6_invalid_rollback.1 mkStateManager 0 (by decide),
   C6_invalid_rollback.1 mkStateManager (-1) (by decide),
   C6_invalid_rollback.2 mkStateManager "nonexistent" (by simp [mkStateManager])⟩

/-- C5: invoking `batchUpdate` while a batch is open fails with
`AlreadyInBatch` performing none of the nested work (the container is
returned untouched); and any `batchUpdate` that actually opened a batch
leaves `batchMode = false` on termination, whether the work completed or
raised — a nested-attempt scenario re-raises `AlreadyInBatch` to the
outer caller with the flag cleared and no write applied. -/
theorem C5_batch_reentrancy_and_flag :
    (∀ (sm : StateManager) (work : List BatchCmd), sm.batchMode = true →
        batchUpdate sm work =
          { sm := sm, notifications := [], events := [], error := some .alreadyInBatch }) ∧
    (∀ (sm : StateManager) (work : List BatchCmd), sm.batchMode = false →
        (batchUpdate sm work).sm.batchMode = false) ∧
    (∀ sm : StateManager, sm.batchMode = false →
        (batchUpdate sm [.nestedBatch]).error = some .alreadyInBatch ∧
        (batchUpdate sm [.nestedBatch]).sm.state = sm.state ∧
        (batchUpdate sm [.nestedBatch]).sm.batchMode = false) := by
  refine ⟨?_, ?_, ?_⟩
  · intro sm work h
    simp [batchUpdate, h]
  · intro sm work h
    simp only [batchUpdate, h, Bool.false_eq_true, if_false]
    split <;> rfl
  · intro sm h
    refine ⟨?_, ?_, ?_⟩ <;> simp [batchUpdate, runWork, h]

theorem C5_batch_reentrancy_witness :
    batchUpdate { mkStateManager with batchMode := true } [] =
      { sm := { mkStateManager with batchMode := true }, notifications := [],
        events := [], error := some .alreadyInBatch } ∧
    (batchUpdate mkStateManager [.raiseErr "Batch error"]).sm.batchMode = false ∧
    (batchUpdate mkStateManager [.nestedBatch]).error = some .alreadyInBatch :=
  ⟨C5_batch_reentrancy_and_flag.1 _ [] rfl,
   C5_batch_reentrancy_and_flag.2.1 mkStateManager [.raiseErr "Batch error"] rfl,
   (C5_batch_reentrancy_and_flag.2.2 mkStateManager rfl).1⟩

/-- The container of the C1 scenario: a fresh container with one
subscriber registered on the exact path `"ui.theme"`. -/
def smC1 : StateManager :=
  { mkStateManager with subscribers := [{ id := 0, path := "ui.theme" }] }

/-- C1 counterexample: a validated `setState("ui.theme", "dark",
{silent: true})` on a container with a matching exact-path subscriber
succeeds but invokes no subscriber at all — although the subscriber
registry would have produced an invocation — refuting the claim that only
the external `state:changed` publish is skipped.  (Pinned by the test
"should not emit events when silent option is used", which asserts the
subscriber callback is not called.) -/
theorem C1_silent_skips_subscribers_counterexample :
    writeIsOk (setState smC1 "ui.theme" (Value.str "dark") ⟨true, true⟩) = true ∧
    writeNotifs (setState smC1 "ui.theme" (Value.str "dark") ⟨true, true⟩) = [] ∧
    notifySubscribers smC1.subscribers "ui.theme" (Value.str "dark")
        (getPath smC1.state "ui.theme") =
      [{ subId := 0, newValue := Value.str "dark",
         oldValue := some (Value.str "default"), path := "ui.theme" }] :=
  ⟨rfl, rfl, by decide⟩

/-- C1 (amended): a validated `setState(path, value, {silent: true})`
outside a batch still validates, mutates the tree and appends the history
entry, but skips both the subscriber invocations and the external
`state:changed` publish — `silent` suppresses the entire notification
tail, not merely the external publish step. -/
theorem C1_silent_write_pipeline (sm : StateManager) (path : String) (v : Value)
    (h1 : sm.batchMode = false) (h2 : path ≠ "")
    (h3 : findFailingRule sm.validationRules path v = none) :
    setState sm path v ⟨true, true⟩ =
      .ok { sm := { sm with
                    state := setPath sm.state path v,
                    history := trimTo sm.maxHistorySize
                      (sm.history ++ [.single ⟨path, getPath sm.state path, v⟩]) },
            notifications := [],
            events := [] } := by
  simp [setState, h1, h2, h3]

theorem C1_silent_write_pipeline_witness :
    setState smC1 "ui.theme" (Value.str "dark") ⟨true, true⟩ =
      .ok { sm := { smC1 with
                    state := setPath smC1.state "ui.theme" (Value.str "dark"),
                    history := trimTo smC1.maxHistorySize
                      (smC1.history ++
                        [.single ⟨"ui.theme", getPath smC1.state "ui.theme", Value.str "dark"⟩]) },
            notifications := [],
            events := [] } :=
  C1_silent_write_pipeline smC1 "ui.theme" (Value.str "dark") rfl (by decide) rfl

/-- C3: a validated write for which some registered rule's pattern matches
the path and the rule's predicate rejects the value — `findFailingRule`
being the first such rule, exactly as the pipeline consults it — raises
`ValidationFailed` carrying that rule's message (or the generic message
when none was supplied).  The `Except.error` result is the JS throw: no
`WriteResult` exists, so the caller's tree, history log and subscribers
are untouched by construction. -/
theorem C3_validation_failure_aborts (sm : StateManager) (path : String) (v : Value)
    (r : Rule) (silent : Bool) (h1 : path ≠ "")
    (h2 : findFailingRule sm.validationRules path v = some r) :
    setState sm path v ⟨true, silent⟩ =
      .error (.validationFailed
        (r.message.getD ("StateManager: Validation failed for path: " ++ path))) := by
  simp [setState, h1, h2]

/-- The always-failing rule of the C3 witness. -/
def c3rule : Rule :=
  { pattern := "test.path", validator := fun _ => false, message := some "Always fails" }

/-- The container of the C3 witness: a fresh container with `c3rule`
registered. -/
def smC3 : StateManager := { mkStateManager with validationRules := [c3rule] }

theorem C3_validation_failure_witness :
    setState smC3 "test.path" (Value.str "value") ⟨true, false⟩ =
      .error (.validationFailed "Always fails") :=
  C3_validation_failure_aborts smC3 "test.path" (Value.str "value") c3rule false
    (by decide) rfl

/-- Accepted writes succeed: with a non-empty path and no failing matching
rule, `setState` returns `ok`. -/
theorem writeIsOk_setState (sm : StateManager) (path : String) (v : Value)
    (silent : Bool) (h1 : path ≠ "")
    (h2 : findFailingRule sm.validationRules path v = none) :
    writeIsOk (setState sm path v ⟨true, silent⟩) = true := by
  simp only [setState, if_neg h1, h2]
  split
  · next heq => simp at heq
  · split <;> rfl

/-- C7: wildcard validation.  (a) A pattern matches a path exactly when
their segment lists have equal length and agree segment-wise with `*`
matching any single segment; hence matching is independent of the
wildcard segment's concrete value and fails for paths with a different
segment count or a mismatching literal segment.  (b) Under a single
registered rule whose pattern matches the written path, the write is
accepted exactly when the predicate accepts the value (so the outcome
depends only on the value, not on the wildcard segment).  (c) When the
pattern does not match the path, the rule does not affect the write. -/
theorem C7_wildcard_validation :
    (∀ ps ss : List String, segMatches ps ss = true ↔
        (ps.length = ss.length ∧
          ∀ i, i < ps.length → ps.getD i "" = "*" ∨ ps.getD i "" = ss.getD i "")) ∧
    (∀ (pat : String) (f : Value → Bool) (msg : Option String) (sm : StateManager)
        (path : String) (v : Value),
        sm.validationRules = [{ pattern := pat, validator := f, message := msg }] →
        path ≠ "" → patternMatches pat path = true →
        writeIsOk (setState sm path v ⟨true, false⟩) = f v) ∧
    (∀ (pat : String) (f : Value → Bool) (msg : Option String) (sm : StateManager)
        (path : String) (v : Value),
        sm.validationRules = [{ pattern := pat, validator := f, message := msg }] →
        path ≠ "" → patternMatches pat path = false →
        writeIsOk (setState sm path v ⟨true, false⟩) = true) := by
  refine ⟨?_, ?_, ?_⟩
  · intro ps
    induction ps with
    | nil => intro ss; cases ss <;> simp [segMatches]
    | cons p ps ih =>
      intro ss
      cases ss with
      | nil => simp [segMatches]
      | cons s ss =>
        simp only [segMatches, Bool.and_eq_true, Bool.or_eq_true, decide_eq_true_eq,
          List.length_cons, ih]
        constructor
        · rintro ⟨hhead, hlen, htail⟩
          refine ⟨by omega, ?_⟩
          intro i hi
          cases i with
          | zero => simpa using hhead
          | succ j =>
            have := htail j (by omega)
            simpa using this
        · rintro ⟨hlen, hall⟩
          refine ⟨?_, by omega, ?_⟩
          · simpa using hall 0 (by omega)
          · intro j hj
            have := hall (j + 1) (by omega)
            simpa using this
  · intro pat f msg sm path v hrules hpath hmatch
    cases hf : f v
    · have hfail : findFailingRule sm.validationRules path v =
          some { pattern := pat, validator := f, message := msg } := by
        simp [findFailingRule, hrules, List.find?, hmatch, hf]
      simp [setState, hpath, hfail, writeIsOk]
    · have hnone : findFailingRule sm.validationRules path v = none := by
        simp [findFailingRule, hrules, List.find?, hmatch, hf]
      exact writeIsOk_setState sm path v false hpath hnone
  · intro pat f msg sm path v hrules hpath hmatch
    have hnone : findFailingRule sm.validationRules path v = none := by
      simp [findFailingRule, hrules, List.find?, hmatch]
    exact writeIsOk_setState sm path v false hpath hnone

/-- The C7 witness predicate: accept exactly the non-empty strings. -/
def c7pred : Value → Bool
  | .str s => decide (s.length > 0)
  | _ => false

/-- The C7 witness container: one rule on `"characters.*.name"`. -/
def smC7 : StateManager :=
  { mkStateManager with
    validationRules :=
      [{ pattern := "characters.*.name", validator := c7pred,
         message := some "Character name must be a non-empty string" }] }

theorem C7_wildcard_validation_witness :
    writeIsOk (setState smC7 "characters.alice.name" (Value.str "") ⟨true, false⟩) = false ∧
    writeIsOk (setState smC7 "characters.alice.name" (Value.str "Valid Name") ⟨true, false⟩) = true ∧
    writeIsOk (setState smC7 "characters.bob.name" (Value.str "Valid Name") ⟨true, false⟩) = true ∧
    writeIsOk (setState smC7 "characters.alice.id" (Value.num 5) ⟨true, false⟩) = true :=
  ⟨C7_wildcard_validation.2.1 "characters.*.name" c7pred
      (some "Character name must be a non-empty string") smC7
      "characters.alice.name" (Value.str "") rfl (by decide) (by decide),
   C7_wildcard_validation.2.1 "characters.*.name" c7pred
      (some "Character name must be a non-empty string") smC7
      "characters.alice.name" (Value.str "Valid Name") rfl (by decide) (by decide),
   C7_wildcard_validation.2.1 "characters.*.name" c7pred
      (some "Character name must be a non-empty string") smC7
      "characters.bob.name" (Value.str "Valid Name") rfl (by decide) (by decide),
   C7_wildcard_validation.2.2 "characters.*.name" c7pred
      (some "Character name must be a non-empty string") smC7
      "characters.alice.id" (Value.num 5) rfl (by decide) (by decide)⟩

/-! ## Diff Engine lemmas (claim C2) -/

/-- Processing one more source key can only extend the `added` entries
collected from the rest. -/
theorem diff_tail_added (pre k : String) (va : Value) (rest b : List (String × Value)) :
    ∀ x ∈ (getDiffFields pre rest (objRemove k b)).added,
      x ∈ (getDiffFields pre ((k, va) :: rest) b).added := by
  intro x hx
  rw [getDiffFields]
  cases hfind : objFind k b with
  | none => simpa using hx
  | some vb =>
    simp only [DiffResult.append, List.mem_append]
    exact Or.inr hx

/-- Processing one more source key can only extend the `removed` entries
collected from the rest. -/
theorem diff_tail_removed (pre k : String) (va : Value) (rest b : List (String × Value)) :
    ∀ x ∈ (getDiffFields pre rest (objRemove k b)).removed,
      x ∈ (getDiffFields pre ((k, va) :: rest) b).removed := by
  intro x hx
  rw [getDiffFields]
  cases hfind : objFind k b with
  | none => simp only; exact List.mem_cons_of_mem _ hx
  | some vb =>
    simp only [DiffResult.append, List.mem_append]
    exact Or.inr hx

/-- Processing one more source key can only extend the `modified` entries
collected from the rest. -/
theorem diff_tail_modified (pre k : String) (va : Value) (rest b : List (String × Value)) :
    ∀ x ∈ (getDiffFields pre rest (objRemove k b)).modified,
      x ∈ (getDiffFields pre ((k, va) :: rest) b).modified := by
  intro x hx
  rw [getDiffFields]
  cases hfind : objFind k b with
  | none => simpa using hx
  | some vb =>
    simp only [DiffResult.append, List.mem_append]
    exact Or.inr hx

/-- A key present only in the target contributes `added[path] = the whole
new subtree` at its point of divergence. -/
theorem diff_added_of_new_key (pre : String) :
    ∀ (a b : List (String × Value)) (k : String) (vb : Value),
      objFind k a = none → objFind k b = some vb →
      (joinPath pre k, vb) ∈ (getDiffFields pre a b).added := by
  intro a
  induction a with
  | nil =>
    intro b k vb _ h2
    rw [getDiffFields]
    exact List.mem_map.mpr ⟨(k, vb), objFind_mem h2, rfl⟩
  | cons hd rest ih =>
    obtain ⟨k', va'⟩ := hd
    intro b k vb h1 h2
    have hk : ¬ k' = k := by
      intro he
      simp [objFind, he] at h1
    have h1' : objFind k rest = none := by simpa [objFind, hk] using h1
    have h2' : objFind k (objRemove k' b) = some vb := by
      rw [objFind_objRemove_ne k' k b hk]; exact h2
    exact diff_tail_added pre k' va' rest b _ (ih _ k vb h1' h2')

/-- A key present only in the source contributes `removed[path] = the
whole dropped subtree` at its point of divergence. -/
theorem diff_removed_of_dropped_key (pre : String) :
    ∀ (a b : List (String × Value)) (k : String) (va : Value),
      objFind k a = some va → objFind k b = none →
      (joinPath pre k, va) ∈ (getDiffFields pre a b).removed := by
  intro a
  induction a with
  | nil => intro b k va h1 _; simp [objFind] at h1
  | cons hd rest ih =>
    obtain ⟨k', va'⟩ := hd
    intro b k va h1 h2
    by_cases hk : k' = k
    · subst hk
      have hva : va' = va := by simpa [objFind] using h1
      subst hva
      rw [getDiffFields]
      rw [h2]
      exact List.mem_cons_self _ _
    · have h1' : objFind k rest = some va := by simpa [objFind, hk] using h1
      have h2' : objFind k (objRemove k' b) = none := by
        rw [objFind_objRemove_ne k' k b hk]; exact h2
      exact diff_tail_removed pre k' va' rest b _ (ih _ k va h1' h2')

/-- A key present on both sides as mappings is recursed into: every
`modified` leaf found under the shared ancestor reappears, prefixed, in
the outer diff. -/
theorem diff_modified_nested (pre : String) :
    ∀ (a b : List (String × Value)) (k : String) (fa fb : List (String × Value)),
      objFind k a = some (.obj fa) → objFind k b = some (.obj fb) →
      ∀ x ∈ (getDiffFields (joinPath pre k) fa fb).modified,
        x ∈ (getDiffFields pre a b).modified := by
  intro a
  induction a with
  | nil => intro b k fa fb h1 _ x _; simp [objFind] at h1
  | cons hd rest ih =>
    obtain ⟨k', va'⟩ := hd
    intro b k fa fb h1 h2 x hx
    by_cases hk : k' = k
    · subst hk
      have hva : va' = Value.obj fa := by simpa [objFind] using h1
      subst hva
      rw [getDiffFields]
      rw [h2]
      simp only [getDiffPair, DiffResult.append, List.mem_append]
      exact Or.inl hx
    · have h1' : objFind k rest = some (.obj fa) := by simpa [objFind, hk] using h1
      have h2' : objFind k (objRemove k' b) = some (.obj fb) := by
        rw [objFind_objRemove_ne k' k b hk]; exact h2
      exact diff_tail_modified pre k' va' rest b _ (ih _ k fa fb h1' h2' x hx)

/-- A shared key that is not a pair of mappings is compared atomically by
deep equality. -/
theorem getDiffPair_atomic (p : String) (va vb : Value)
    (hobj : (va.isObj && vb.isObj) = false) (hne : va ≠ vb) :
    getDiffPair p va vb = { added := [], modified := [(p, va, vb)], removed := [] } := by
  cases va <;> cases vb <;> simp_all [getDiffPair, Value.isObj]

/-- A key present on both sides whose values are not both mappings and
are deeply unequal contributes one `modified[path] = (old, new)` entry. -/
theorem diff_modified_atomic (pre : String) :
    ∀ (a b : List (String × Value)) (k : String) (va vb : Value),
      objFind k a = some va → objFind k b = some vb →
      (va.isObj && vb.isObj) = false → va ≠ vb →
      (joinPath pre k, va, vb) ∈ (getDiffFields pre a b).modified := by
  intro a
  induction a with
  | nil => intro b k va vb h1 _ _ _; simp [objFind] at h1
  | cons hd rest ih =>
    obtain ⟨k', va'⟩ := hd
    intro b k va vb h1 h2 hobj hne
    by_cases hk : k' = k
    · subst hk
      have hva : va' = va := by simpa [objFind] using h1
      subst hva
      rw [getDiffFields, h2]
      dsimp only
      rw [getDiffPair_atomic _ _ _ hobj hne]
      simp [DiffResult.append]
    · have h1' : objFind k rest = some va := by simpa [objFind, hk] using h1
      have h2' : objFind k (objRemove k' b) = some vb := by
        rw [objFind_objRemove_ne k' k b hk]; exact h2
      exact diff_tail_modified pre k' va' rest b _ (ih _ k va vb h1' h2' hobj hne)

/-- C2: shape of `getDiffBetween`.  (a) A key present only in the target
yields one `added[path] = wholeNewSubtree` entry at the point of
divergence; (b) a key present only in the source yields one
`removed[path] = wholeDroppedSubtree` entry likewise; (c) keys present on
both sides as mappings are recursed through, every `modified` leaf under
the shared ancestor surfacing in the outer result (leaf granularity
through shared mapping ancestors); (d) shared keys that are not two
mappings — including sequences — are compared atomically by deep
equality.  The two closed conjuncts evaluate the engine on the
repository's own diff test fixtures, exhibiting in particular that
added/removed subtrees are not flattened past the point of divergence. -/
theorem C2_diff_between_shape :
    (∀ (pre : String) (a b : List (String × Value)) (k : String) (vb : Value),
        objFind k a = none → objFind k b = some vb →
        (joinPath pre k, vb) ∈ (getDiffFields pre a b).added) ∧
    (∀ (pre : String) (a b : List (String × Value)) (k : String) (va : Value),
        objFind k a = some va → objFind k b = none →
        (joinPath pre k, va) ∈ (getDiffFields pre a b).removed) ∧
    (∀ (pre : String) (a b : List (String × Value)) (k : String)
        (fa fb : List (String × Value)),
        objFind k a = some (.obj fa) → objFind k b = some (.obj fb) →
        ∀ x ∈ (getDiffFields (joinPath pre k) fa fb).modified,
          x ∈ (getDiffFields pre a b).modified) ∧
    (∀ (pre : String) (a b : List (String × Value)) (k : String) (va vb : Value),
        objFind k a = some va → objFind k b = some vb →
        (va.isObj && vb.isObj) = false → va ≠ vb →
        (joinPath pre k, va, vb) ∈ (getDiffFields pre a b).modified) ∧
    getDiffBetween
        [("a", Value.num 1), ("b", Value.obj [("c", Value.num 2)])]
        [("a", Value.num 2), ("b", Value.obj [("c", Value.num 3), ("d", Value.num 4)]),
         ("e", Value.num 5)] =
      { added := [("b.d", Value.num 4), ("e", Value.num 5)],
        modified := [("a", Value.num 1, Value.num 2), ("b.c", Value.num 2, Value.num 3)],
        removed := [] } ∧
    getDiffBetween
        [("characters", Value.obj
          [("char1", Value.obj [("name", Value.str "Alice"),
                                ("tags", Value.arr [Value.str "hero"])]),
           ("char2", Value.obj [("name", Value.str "Bob"),
                                ("tags", Value.arr [Value.str "villain"])])])]
        [("characters", Value.obj
          [("char1", Value.obj [("name", Value.str "Alice"),
                                ("tags", Value.arr [Value.str "hero", Value.str "leader"])]),
           ("char3", Value.obj [("name", Value.str "Charlie"),
                                ("tags", Value.arr [Value.str "neutral"])])])] =
      { added := [("characters.char3",
                   Value.obj [("name", Value.str "Charlie"),
                              ("tags", Value.arr [Value.str "neutral"])])],
        modified := [("characters.char1.tags",
                      Value.arr [Value.str "hero"],
                      Value.arr [Value.str "hero", Value.str "leader"])],
        removed := [("characters.char2",
                     Value.obj [("name", Value.str "Bob"),
                                ("tags", Value.arr [Value.str "villain"])])] } :=
  ⟨diff_added_of_new_key, diff_removed_of_dropped_key, diff_modified_nested,
   diff_modified_atomic, rfl, rfl⟩

theorem C2_diff_between_shape_witness :
    ("e", Value.num 5) ∈
      (getDiffFields "" [("a", Value.num 1)]
        [("a", Value.num 1), ("e", Value.num 5)]).added ∧
    ("gone", Value.num 7) ∈
      (getDiffFields "" [("gone", Value.num 7), ("kept", Value.null)]
        [("kept", Value.null)]).removed ∧
    ("u.t", Value.str "x", Value.str "y") ∈
      (getDiffFields "" [("u", Value.obj [("t", Value.str "x")])]
        [("u", Value.obj [("t", Value.str "y")])]).modified ∧
    ("tags", Value.arr [Value.str "hero"], Value.arr [Value.str "hero", Value.str "leader"]) ∈
      (getDiffFields "" [("tags", Value.arr [Value.str "hero"])]
        [("tags", Value.arr [Value.str "hero", Value.str "leader"])]).modified :=
  ⟨C2_diff_between_shape.1 "" [("a", Value.num 1)]
      [("a", Value.num 1), ("e", Value.num 5)] "e" (Value.num 5) rfl rfl,
   C2_diff_between_shape.2.1 "" [("gone", Value.num 7), ("kept", Value.null)]
      [("kept", Value.null)] "gone" (Value.num 7) rfl rfl,
   C2_diff_between_shape.2.2.1 "" [("u", Value.obj [("t", Value.str "x")])]
      [("u", Value.obj [("t", Value.str "y")])] "u"
      [("t", Value.str "x")] [("t", Value.str "y")] rfl rfl
      ("u.t", Value.str "x", Value.str "y") (by decide),
   C2_diff_between_shape.2.2.2.1 "" [("tags", Value.arr [Value.str "hero"])]
      [("tags", Value.arr [Value.str "hero", Value.str "leader"])] "tags"
      (Value.arr [Value.str "hero"]) (Value.arr [Value.str "hero", Value.str "leader"])
      rfl rfl rfl (by decide)⟩

/-! ## Checkpoint/rollback lemmas (claim C9) -/

/-- Apply a sequence of plain writes (default options), a rejected write
leaving the container as it was — the "any sequence of accepted writes"
of the rollback scenario. -/
def applyWrites (sm : StateManager) (ws : List (String × Value)) : StateManager :=
  ws.foldl
    (fun s pv =>
      match setState s pv.1 pv.2 { validate := true, silent := false } with
      | .ok r => r.sm
      | .error _ => s)
    sm

/-- An accepted write never touches the checkpoint stack. -/
theorem setState_ok_rollbackStack (sm : StateManager) (path : String) (v : Value)
    (opts : SetOptions) (r : WriteResult) (h : setState sm path v opts = .ok r) :
    r.sm.rollbackStack = sm.rollbackStack := by
  dsimp only [setState] at h
  split at h
  · exact Except.noConfusion h
  · split at h
    · exact Except.noConfusion h
    · repeat' split at h
      all_goals
        first
        | exact Except.noConfusion h
        | (injection h with h'; subst h'; rfl)

/-- A write sequence never touches the checkpoint stack. -/
theorem applyWrites_rollbackStack (ws : List (String × Value)) :
    ∀ sm : StateManager, (applyWrites sm ws).rollbackStack = sm.rollbackStack := by
  induction ws with
  | nil => intro sm; rfl
  | cons w rest ih =>
    intro sm
    have hstep : applyWrites sm (w :: rest) =
        applyWrites
          (match setState sm w.1 w.2 { validate := true, silent := false } with
            | .ok r => r.sm
            | .error _ => sm) rest := rfl
    rw [hstep, ih]
    cases hss : setState sm w.1 w.2 { validate := true, silent := false } with
    | ok r => exact setState_ok_rollbackStack _ _ _ _ _ hss
    | error e => rfl

/-- `findIdx?` over a list whose front entries all fail lands on the
appended last element when it matches. -/
theorem findIdx?_last_of_front_fail {α : Type} (p : α → Bool) (l : List α) (a : α)
    (h : ∀ x ∈ l, p x = false) (ha : p a = true) :
    List.findIdx? p (l ++ [a]) = some l.length := by
  rw [List.findIdx?_append]
  have h1 : List.findIdx? p l = none := List.findIdx?_eq_none_iff.mpr h
  simp [h1, List.findIdx?_cons, ha]

/-- C9: after `createCheckpoint("L")` (on a stack holding no checkpoint
already identified or labelled `L`, with a positive stack capacity) and
any sequence of writes, `rollback("L")` coincides with the numeric
`rollback(1)` resolving to the same (topmost) stack slot, succeeds, and
restores the whole tree — hence every path — to its checkpoint-time
value; paths the writes never touched equal their snapshot values like
every other. -/
theorem C9_checkpoint_rollback (sm : StateManager) (L : String)
    (ws : List (String × Value))
    (hmax : 0 < sm.maxRollbackStack)
    (hfresh : ∀ cp ∈ sm.rollbackStack, cp.id ≠ L ∧ cp.label ≠ some L) :
    rollback (applyWrites (createCheckpoint sm (some L)).1 ws) (.str L) =
      rollback (applyWrites (createCheckpoint sm (some L)).1 ws) (.num 1) ∧
    (rollback (applyWrites (createCheckpoint sm (some L)).1 ws) (.str L)).2 = true ∧
    (rollback (applyWrites (createCheckpoint sm (some L)).1 ws) (.str L)).1.state = sm.state := by
  set cp : Checkpoint :=
    { id := "checkpoint_" ++ toString sm.counter, label := some L, snapshot := sm.state } with hcp
  set d := (sm.rollbackStack.length + 1) - sm.maxRollbackStack with hd
  have hdle : d ≤ sm.rollbackStack.length := by omega
  have hstack1 : (createCheckpoint sm (some L)).1.rollbackStack
      = sm.rollbackStack.drop d ++ [cp] := by
    simp only [createCheckpoint, List.length_append, List.length_cons, List.length_nil]
    rw [List.drop_append_of_le_length (by omega)]
  have hstack2 : (applyWrites (createCheckpoint sm (some L)).1 ws).rollbackStack
      = sm.rollbackStack.drop d ++ [cp] := by
    rw [applyWrites_rollbackStack, hstack1]
  have hfail : ∀ x ∈ sm.rollbackStack.drop d,
      (decide (x.id = L) || decide (x.label = some L)) = false := by
    intro x hx
    obtain ⟨h1, h2⟩ := hfresh x (List.mem_of_mem_drop hx)
    simp [h1, h2]
  have hres : resolveTarget (sm.rollbackStack.drop d ++ [cp]) (.str L)
      = some (sm.rollbackStack.drop d).length := by
    simp only [resolveTarget]
    exact findIdx?_last_of_front_fail _ _ _ hfail (by simp [hcp])
  have hres2 : resolveTarget (sm.rollbackStack.drop d ++ [cp]) (.num 1)
      = some (sm.rollbackStack.drop d).length := by
    simp only [resolveTarget, List.length_append, List.length_cons, List.length_nil]
    rw [if_pos (by constructor <;> [norm_num; (push_cast; omega)])]
    simp
  have hget : (sm.rollbackStack.drop d ++ [cp])[(sm.rollbackStack.drop d).length]? = some cp :=
    List.getElem?_concat_length _ _
  have hrb1 : rollback (applyWrites (createCheckpoint sm (some L)).1 ws) (.str L) =
      ({ applyWrites (createCheckpoint sm (some L)).1 ws with
          state := cp.snapshot,
          rollbackStack :=
            (sm.rollbackStack.drop d ++ [cp]).take (sm.rollbackStack.drop d).length }, true) := by
    simp only [rollback, hstack2, hres, hget]
  have hrb2 : rollback (applyWrites (createCheckpoint sm (some L)).1 ws) (.num 1) =
      ({ applyWrites (createCheckpoint sm (some L)).1 ws with
          state := cp.snapshot,
          rollbackStack :=
            (sm.rollbackStack.drop d ++ [cp]).take (sm.rollbackStack.drop d).length }, true) := by
    simp only [rollback, hstack2, hres2, hget]
  refine ⟨by rw [hrb1, hrb2], by rw [hrb1], by rw [hrb1]⟩

theorem C9_checkpoint_rollback_witness :
    rollback
        (applyWrites (createCheckpoint mkStateManager (some "initial")).1
          [("ui.theme", Value.str "light"), ("ui.sidebarOpen", Value.bool false)])
        (.str "initial") =
      rollback
        (applyWrites (createCheckpoint mkStateManager (some "initial")).1
          [("ui.theme", Value.str "light"), ("ui.sidebarOpen", Value.bool false)])
        (.num 1) ∧
    (rollback
        (applyWrites (createCheckpoint mkStateManager (some "initial")).1
          [("ui.theme", Value.str "light"), ("ui.sidebarOpen", Value.bool false)])
        (.str "initial")).2 = true ∧
    (rollback
        (applyWrites (createCheckpoint mkStateManager (some "initial")).1
          [("ui.theme", Value.str "light"), ("ui.sidebarOpen", Value.bool false)])
        (.str "initial")).1.state = mkStateManager.state :=
  C9_checkpoint_rollback mkStateManager "initial"
    [("ui.theme", Value.str "light"), ("ui.sidebarOpen", Value.bool false)]
    (by decide) (by simp [mkStateManager])

/-! ## Frame property of the Path Accessor (claim C4) -/

/-- Is the first segment list an ancestor-or-equal of the second
(i.e. the second starts with the first)?  Two paths interfere through the
tree exactly when one is an ancestor of the other. -/
def segsAnc : List String → List String → Bool
  | [], _ => true
  | _ :: _, [] => false
  | a :: as, b :: bs => a = b && segsAnc as bs

/-- Unfolding: reading a one-segment path is a key lookup. -/
theorem getSegs_single (fields : List (String × Value)) (k : String) :
    getSegs fields [k] = objFind k fields := by
  rw [getSegs]

/-- Unfolding: reading a longer path descends through a mapping child. -/
theorem getSegs_cons2 (fields : List (String × Value)) (k k2 : String) (rest : List String) :
    getSegs fields (k :: k2 :: rest) =
      (match objFind k fields with
        | some (.obj f) => getSegs f (k2 :: rest)
        | _ => none) := by
  rw [getSegs]
  intro hc
  exact List.noConfusion hc

/-- Reading any path in the empty mapping yields `undefined`. -/
theorem getSegs_nilF : ∀ qs : List String, getSegs ([] : List (String × Value)) qs = none := by
  intro qs
  cases qs with
  | nil => rw [getSegs]
  | cons q rest =>
    cases rest with
    | nil => rw [getSegs_single]; rfl
    | cons q2 r2 => rw [getSegs_cons2]; rfl

/-- Unfolding: writing a one-segment path is a key assignment. -/
theorem setSegs_single (fields : List (String × Value)) (k : String) (v : Value) :
    setSegs fields [k] v = objSet k v fields := by
  rw [setSegs]

/-- Unfolding: writing a longer path descends through (or creates) a
mapping child. -/
theorem setSegs_cons2 (fields : List (String × Value)) (k k2 : String) (rest : List String)
    (v : Value) :
    setSegs fields (k :: k2 :: rest) v =
      objSet k
        (.obj (setSegs
          (match objFind k fields with
            | some (.obj f) => f
            | _ => []) (k2 :: rest) v)) fields := by
  rw [setSegs]
  intro hc
  exact List.noConfusion hc

/-- Frame property: a write along `ps` leaves reads along `qs` unchanged
whenever neither segment list is an ancestor of the other. -/
theorem getSegs_setSegs_of_not_anc :
    ∀ (ps qs : List String) (fields : List (String × Value)) (v : Value),
      segsAnc ps qs = false → segsAnc qs ps = false →
      getSegs (setSegs fields ps v) qs = getSegs fields qs := by
  intro ps
  induction ps with
  | nil => intro qs fields v h1 _; simp [segsAnc] at h1
  | cons p0 prest ih =>
    intro qs fields v h1 h2
    cases qs with
    | nil => simp [segsAnc] at h2
    | cons q0 qrest =>
      by_cases hpq : p0 = q0
      · subst hpq
        have h1' : segsAnc prest qrest = false := by simpa [segsAnc] using h1
        have h2' : segsAnc qrest prest = false := by simpa [segsAnc] using h2
        cases prest with
        | nil => simp [segsAnc] at h1'
        | cons p1 prest' =>
          cases qrest with
          | nil => simp [segsAnc] at h2'
          | cons q1 qrest' =>
            rw [setSegs_cons2, getSegs_cons2, getSegs_cons2, objFind_objSet_self]
            cases hf : objFind p0 fields with
            | none =>
              dsimp only
              rw [ih (q1 :: qrest') [] v h1' h2', getSegs_nilF]
            | some val =>
              cases val with
              | obj f =>
                dsimp only
                exact ih (q1 :: qrest') f v h1' h2'
              | null => dsimp only; rw [ih (q1 :: qrest') [] v h1' h2', getSegs_nilF]
              | bool b => dsimp only; rw [ih (q1 :: qrest') [] v h1' h2', getSegs_nilF]
              | num n => dsimp only; rw [ih (q1 :: qrest') [] v h1' h2', getSegs_nilF]
              | str s => dsimp only; rw [ih (q1 :: qrest') [] v h1' h2', getSegs_nilF]
              | arr xs => dsimp only; rw [ih (q1 :: qrest') [] v h1' h2', getSegs_nilF]
      · cases qrest with
        | nil =>
          cases prest with
          | nil =>
            rw [setSegs_single, getSegs_single, getSegs_single,
              objFind_objSet_ne p0 q0 v fields hpq]
          | cons p1 prest' =>
            rw [setSegs_cons2, getSegs_single, getSegs_single,
              objFind_objSet_ne p0 q0 _ fields hpq]
        | cons q1 qrest' =>
          cases prest with
          | nil =>
            rw [setSegs_single, getSegs_cons2, getSegs_cons2,
              objFind_objSet_ne p0 q0 v fields hpq]
          | cons p1 prest' =>
            rw [setSegs_cons2, getSegs_cons2, getSegs_cons2,
              objFind_objSet_ne p0 q0 _ fields hpq]

/-- C4: a `batchUpdate` performing two writes to prefix-unrelated paths
invokes each path's subscribers exactly once with that path's old and new
values, publishes exactly one external `state:batch` event listing both
`{path, oldValue, newValue}` records in order (and no per-write
`state:changed` event), and appends exactly one batch history entry
containing both updates in order. -/
theorem C4_batch_two_writes (sm : StateManager) (p1 p2 : String) (v1 v2 : Value)
    (hb : sm.batchMode = false)
    (hr : sm.validationRules = [])
    (hp1 : p1 ≠ "") (hp2 : p2 ≠ "")
    (ha1 : segsAnc (pathSegs p1) (pathSegs p2) = false)
    (ha2 : segsAnc (pathSegs p2) (pathSegs p1) = false) :
    batchUpdate sm [.write p1 v1, .write p2 v2] =
      { sm := { sm with
                state := setPath (setPath sm.state p1 v1) p2 v2,
                history := trimTo sm.maxHistorySize
                  (sm.history ++ [.batch [⟨p1, getPath sm.state p1, v1⟩,
                                          ⟨p2, getPath sm.state p2, v2⟩]]),
                batchMode := false,
                batchUpdates := [] },
        notifications :=
          notifySubscribers sm.subscribers p1 v1 (getPath sm.state p1) ++
          notifySubscribers sm.subscribers p2 v2 (getPath sm.state p2),
        events := [.stateBatch [⟨p1, getPath sm.state p1, v1⟩,
                                ⟨p2, getPath sm.state p2, v2⟩]],
        error := none } := by
  have hfr : getPath (setPath sm.state p1 v1) p2 = getPath sm.state p2 :=
    getSegs_setSegs_of_not_anc (pathSegs p1) (pathSegs p2) sm.state v1 ha1 ha2
  have hs1 : setState { sm with batchMode := true, batchUpdates := [] } p1 v1
      { validate := true, silent := false } =
      .ok { sm := { sm with
                    batchMode := true,
                    state := setPath sm.state p1 v1,
                    batchUpdates := [⟨p1, getPath sm.state p1, v1⟩] },
            notifications := notifySubscribers sm.subscribers p1 v1 (getPath sm.state p1),
            events := [] } := by
    simp [setState, hp1, hr, findFailingRule]
  have hs2 : setState { sm with
                        batchMode := true,
                        state := setPath sm.state p1 v1,
                        batchUpdates := [⟨p1, getPath sm.state p1, v1⟩] } p2 v2
      { validate := true, silent := false } =
      .ok { sm := { sm with
                    batchMode := true,
                    state := setPath (setPath sm.state p1 v1) p2 v2,
                    batchUpdates := [⟨p1, getPath sm.state p1, v1⟩,
                                     ⟨p2, getPath sm.state p2, v2⟩] },
            notifications := notifySubscribers sm.subscribers p2 v2 (getPath sm.state p2),
            events := [] } := by
    simp [setState, hp2, hr, findFailingRule, hfr]
  simp only [batchUpdate, hb, Bool.false_eq_true, if_false, runWork, hs1, hs2]
  simp

/-- The C4 witness container: one subscriber per written path, as in the
repository's batch test. -/
def smC4 : StateManager :=
  { mkStateManager with
    subscribers := [{ id := 0, path := "ui.theme" }, { id := 1, path := "ui.sidebarOpen" }] }

theorem C4_batch_two_writes_witness :
    batchUpdate smC4
        [.write "ui.theme" (Value.str "dark"), .write "ui.sidebarOpen" (Value.bool false)] =
      { sm := { smC4 with
                state := setPath (setPath smC4.state "ui.theme" (Value.str "dark"))
                  "ui.sidebarOpen" (Value.bool false),
                history := trimTo smC4.maxHistorySize
                  (smC4.history ++
                    [.batch [⟨"ui.theme", getPath smC4.state "ui.theme", Value.str "dark"⟩,
                             ⟨"ui.sidebarOpen", getPath smC4.state "ui.sidebarOpen",
                              Value.bool false⟩]]),
                batchMode := false,
                batchUpdates := [] },
        notifications :=
          notifySubscribers smC4.subscribers "ui.theme" (Value.str "dark")
            (getPath smC4.state "ui.theme") ++
          notifySubscribers smC4.subscribers "ui.sidebarOpen" (Value.bool false)
            (getPath smC4.state "ui.sidebarOpen"),
        events := [.stateBatch
            [⟨"ui.theme", getPath smC4.state "ui.theme", Value.str "dark"⟩,
             ⟨"ui.sidebarOpen", getPath smC4.state "ui.sidebarOpen", Value.bool false⟩]],
        error := none } :=
  C4_batch_two_writes smC4 "ui.theme" "ui.sidebarOpen" (Value.str "dark") (Value.bool false)
    rfl rfl (by decide) (by decide) (by decide) (by decide)
